import Mathlib

/-!
Verification development for the filemanager service.

The definitions below are shallow embeddings of the service's code:

* the SQL state projector `reset_current_state.sql`, which recomputes the
  `is_current_state` flag of `s3_object` rows for a set of touched
  `(bucket, key)` pairs;
* the generated column `is_accessible` from migration
  `0006_s3_relax_is_accessible.sql`;
* the v2 schema constraints of the `s3_metadata` and `s3_event` tables;
* the CDK infrastructure configuration: IAM policy statements of the ingest
  function, its environment, and the EventBridge event-source pattern.

Rows of SQL tables are modelled as Lean structures, tables as lists of rows,
nullable columns as `Option`, and SQL window functions as explicit
partition-and-select functions over those lists.
-/

namespace Filemanager

/-- The `event_type` enum of the database schema (`create type event_type as enum`). -/
inductive EventType where
  | Created
  | Deleted
  | DeletedLifecycle
  | Restored
  | RestoreExpired
  | StorageClassChanged
  | Crawl
  | CrawlRestored
  | TaggingCreated
  | TaggingDeleted
deriving DecidableEq, Repr

/-- The `storage_class` enum of the database schema. -/
inductive StorageClass where
  | DeepArchive
  | Glacier
  | GlacierIr
  | IntelligentTiering
  | OnezoneIa
  | Outposts
  | ReducedRedundancy
  | Snow
  | Standard
  | StandardIa
deriving DecidableEq, Repr

/-- The `archive_status` enum of the database schema. -/
inductive ArchiveStatus where
  | ArchiveAccess
  | DeepArchiveAccess
deriving DecidableEq, Repr

/-- A row of the `s3_object` table, restricted to the columns read or written
by `reset_current_state.sql`.  `sequencer` and `version_id` are nullable. -/
structure S3Object where
  s3_object_id : Nat
  bucket : String
  key : String
  version_id : Option String
  event_type : EventType
  sequencer : Option String
  is_delete_marker : Bool
  is_current_state : Bool
deriving DecidableEq, Repr

/-- The `order by sequencer desc nulls last` comparator: `seqBefore a b` holds
when a row with sequencer `a` sorts strictly before a row with sequencer `b`,
i.e. `a` is a non-null sequencer that is lexicographically greater than `b`,
or `a` is non-null and `b` is null (`nulls last`). -/
def seqBefore (a b : Option String) : Bool :=
  match a, b with
  | some x, some y => decide (y.data < x.data)
  | some _, none => true
  | none, _ => false

/-- The row carrying `row_number() = 1` of a partition ordered by
`sequencer desc nulls last`: the first row of the partition (in table order)
whose sequencer no other row strictly precedes. -/
def headRow : List S3Object → Option S3Object
  | [] => none
  | r :: rs =>
    match headRow rs with
    | none => some r
    | some a => if seqBefore a.sequencer r.sequencer then some a else some r

/-- The rows of the partition of `r` in the `current_versions` CTE: the lateral
subquery restricts to the input pair's `bucket` and `key`, and the window
partitions by `version_id`. -/
def versionPartition (table : List S3Object) (r : S3Object) : List S3Object :=
  table.filter fun x =>
    x.bucket == r.bucket && x.key == r.key && x.version_id == r.version_id

/-- The `is_current_version` column of the `current_versions` CTE:
`row_number() over (partition by version_id order by sequencer desc nulls last) = 1
and (is_delete_marker or event_type = 'Created')`. -/
def is_current_version (table : List S3Object) (r : S3Object) : Bool :=
  headRow (versionPartition table r) == some r &&
    (r.is_delete_marker || r.event_type == EventType.Created)

/-- The rows of the partition of `r` in the `current_state` CTE: the window
partitions by `(bucket, key, is_current_version)`. -/
def statePartition (table : List S3Object) (r : S3Object) : List S3Object :=
  table.filter fun x =>
    x.bucket == r.bucket && x.key == r.key &&
      is_current_version table x == is_current_version table r

/-- The `is_current_state` column of the `current_state` CTE:
`row_number() over (partition by bucket, key, is_current_version order by
sequencer desc nulls last) = 1 and is_current_version and not is_delete_marker`. -/
def computeCurrentState (table : List S3Object) (r : S3Object) : Bool :=
  headRow (statePartition table r) == some r &&
    is_current_version table r &&
    !r.is_delete_marker

/-- The `reset_current_state.sql` query: for a set `K` of touched
`(bucket, key)` pairs, update `is_current_state` of every `s3_object` row whose
`(bucket, key)` is in `K` to the value computed by the `current_state` CTE;
rows outside `K` are untouched. -/
def reset_current_state (K : List (String × String)) (table : List S3Object) :
    List S3Object :=
  table.map fun r =>
    if K.contains (r.bucket, r.key) then
      { r with is_current_state := computeCurrentState table r }
    else r

/-- Spec-side reading of §4.H: the rows of a `(bucket, key)` group whose head
row (under `sequencer desc nulls last`) is a Created event or a delete marker
are the *current versions* of the group. -/
def is_current_version_spec (table : List S3Object) (r : S3Object) : Bool :=
  headRow (table.filter fun x =>
      x.bucket == r.bucket && x.key == r.key && x.version_id == r.version_id)
    == some r &&
  (r.event_type == EventType.Created || r.is_delete_marker)

/-- Spec-side reading of §4.H: the current-state row of a `(bucket, key)` group
is the single head row among the current-version rows of the group, with delete
markers disqualified. -/
def current_state_spec (table : List S3Object) (r : S3Object) : Bool :=
  is_current_version_spec table r &&
  !r.is_delete_marker &&
  headRow (table.filter fun x =>
      x.bucket == r.bucket && x.key == r.key && is_current_version_spec table x)
    == some r

/-- Spec-side reading of §4.H as a whole-table transformation: recompute
`is_current_state` via `current_state_spec` for exactly the rows whose
`(bucket, key)` is touched, leaving all other rows unchanged. -/
def reset_current_state_spec (K : List (String × String))
    (table : List S3Object) : List S3Object :=
  table.map fun r =>
    if K.contains (r.bucket, r.key) then
      { r with is_current_state := current_state_spec table r }
    else r

lemma seqBefore_irrefl (a : Option String) : seqBefore a a = false := by
  cases a with
  | none => rfl
  | some x => simp [seqBefore]

lemma seqBefore_asymm {a b : Option String} (h : seqBefore a b = true) :
    seqBefore b a = false := by
  cases a with
  | none => simp [seqBefore] at h
  | some x =>
    cases b with
    | none => rfl
    | some y =>
      simp only [seqBefore, decide_eq_true_eq] at h
      simp only [seqBefore, decide_eq_false_iff_not]
      exact not_lt.mpr (le_of_lt h)

lemma seqBefore_neg_trans {a b c : Option String}
    (hab : seqBefore a b = false) (hbc : seqBefore b c = false) :
    seqBefore a c = false := by
  cases a with
  | none => rfl
  | some x =>
    cases b with
    | none => simp [seqBefore] at hab
    | some y =>
      cases c with
      | none => simp [seqBefore] at hbc
      | some z =>
        simp only [seqBefore, decide_eq_false_iff_not] at hab hbc
        simp only [seqBefore, decide_eq_false_iff_not]
        exact not_lt.mpr (le_trans (not_lt.mp hab) (not_lt.mp hbc))

lemma headRow_eq_none {rows : List S3Object} :
    headRow rows = none ↔ rows = [] := by
  cases rows with
  | nil => simp [headRow]
  | cons r rs =>
    simp only [headRow]
    cases headRow rs with
    | none => simp
    | some a =>
      by_cases h : seqBefore a.sequencer r.sequencer = true <;> simp [h]

lemma headRow_mem {rows : List S3Object} {h : S3Object}
    (hh : headRow rows = some h) : h ∈ rows := by
  induction rows with
  | nil => simp [headRow] at hh
  | cons r rs ih =>
    cases he : headRow rs with
    | none =>
      simp only [headRow, he] at hh
      simp at hh
      simp [hh]
    | some a =>
      simp only [headRow, he] at hh
      by_cases hb : seqBefore a.sequencer r.sequencer = true
      · rw [if_pos hb] at hh
        simp at hh
        exact List.mem_cons_of_mem r (ih (hh ▸ he))
      · rw [if_neg hb] at hh
        simp at hh
        simp [hh]

lemma headRow_min {rows : List S3Object} {h : S3Object}
    (hh : headRow rows = some h) :
    ∀ r ∈ rows, seqBefore r.sequencer h.sequencer = false := by
  induction rows generalizing h with
  | nil => simp [headRow] at hh
  | cons r rs ih =>
    intro x hx
    cases he : headRow rs with
    | none =>
      simp only [headRow, he] at hh
      simp at hh
      rcases List.mem_cons.mp hx with hxr | hxs
      · rw [hxr, hh, seqBefore_irrefl]
      · exact absurd (headRow_eq_none.mp he ▸ hxs) (List.not_mem_nil x)
    | some a =>
      simp only [headRow, he] at hh
      by_cases hb : seqBefore a.sequencer r.sequencer = true
      · rw [if_pos hb] at hh
        simp at hh
        rcases List.mem_cons.mp hx with hxr | hxs
        · rw [hxr, ← hh]
          exact seqBefore_asymm hb
        · exact ih (hh ▸ he) x hxs
      · rw [if_neg hb] at hh
        simp at hh
        rcases List.mem_cons.mp hx with hxr | hxs
        · rw [hxr, hh, seqBefore_irrefl]
        · have h1 : seqBefore x.sequencer a.sequencer = false := ih he x hxs
          have h2 : seqBefore a.sequencer r.sequencer = false :=
            Bool.not_eq_true _ ▸ hb
          rw [hh] at h2
          exact seqBefore_neg_trans h1 h2

lemma is_current_version_spec_eq (table : List S3Object) (r : S3Object) :
    is_current_version table r = is_current_version_spec table r := by
  simp [is_current_version, is_current_version_spec, versionPartition,
    Bool.or_comm]

lemma statePartition_eq_of_current (table : List S3Object) (r : S3Object)
    (h : is_current_version table r = true) :
    statePartition table r =
      table.filter (fun x => x.bucket == r.bucket && x.key == r.key &&
        is_current_version_spec table x) := by
  unfold statePartition
  apply List.filter_congr
  intro x _
  rw [h, ← is_current_version_spec_eq]
  cases hcv : is_current_version table x <;> simp [hcv]

lemma computeCurrentState_eq (table : List S3Object) (r : S3Object) :
    computeCurrentState table r = current_state_spec table r := by
  cases hicv : is_current_version table r with
  | false =>
    have hspec : is_current_version_spec table r = false := by
      rw [← is_current_version_spec_eq, hicv]
    simp [computeCurrentState, current_state_spec, hicv, hspec]
  | true =>
    have hspec : is_current_version_spec table r = true := by
      rw [← is_current_version_spec_eq, hicv]
    rw [computeCurrentState, current_state_spec,
      statePartition_eq_of_current table r hicv, hicv, hspec]
    simp [Bool.and_comm, Bool.and_left_comm, Bool.and_assoc]

/-- **C1.** The state projector `reset_current_state.sql` recomputes
`is_current_state` for exactly the event-log rows whose `(bucket, key)` is in
the touched set `K`, and does so by the algorithm of the spec: partition the
rows of a touched `(bucket, key)` group by `version_id` ordered by
`sequencer desc nulls last`, mark the head row of each partition as a current
version iff its event is a Created or a delete marker, then pick the single
head current-version row of the group as current state, with delete markers
disqualified; rows outside `K` are unchanged. -/
theorem reset_current_state_matches_spec (K : List (String × String))
    (table : List S3Object) :
    reset_current_state K table = reset_current_state_spec K table := by
  unfold reset_current_state reset_current_state_spec
  apply List.map_congr_left
  intro r _
  rw [computeCurrentState_eq]

lemma mem_reset_current_state {K : List (String × String)}
    {table : List S3Object} {a : S3Object}
    (ha : a ∈ reset_current_state K table) :
    ∃ ra ∈ table,
      a = if K.contains (ra.bucket, ra.key) then
        { ra with is_current_state := computeCurrentState table ra }
      else ra := by
  unfold reset_current_state at ha
  obtain ⟨ra, hmem, heq⟩ := List.mem_map.mp ha
  exact ⟨ra, hmem, heq.symm⟩

/-- **C2 (amended).** After `reset_current_state` runs for a touched set `K`
over any contents of the event log, at most one *touched* row per
`(bucket, key)` has `is_current_state = true`, and no *touched* row with
`is_delete_marker = true` has `is_current_state = true`.  (Rows whose
`(bucket, key)` is outside `K` keep their previous flag, so the projection
alone does not establish the invariant for untouched keys.) -/
theorem reset_current_state_unique_current (K : List (String × String))
    (table : List S3Object) :
    (∀ a ∈ reset_current_state K table, ∀ b ∈ reset_current_state K table,
      K.contains (a.bucket, a.key) = true →
      a.bucket = b.bucket → a.key = b.key →
      a.is_current_state = true → b.is_current_state = true → a = b) ∧
    (∀ a ∈ reset_current_state K table,
      K.contains (a.bucket, a.key) = true →
      a.is_delete_marker = true → a.is_current_state = false) := by
  constructor
  · intro a ha b hb hKa hbk hke hca hcb
    obtain ⟨ra, hra, haeq⟩ := mem_reset_current_state ha
    obtain ⟨rb, hrb, hbeq⟩ := mem_reset_current_state hb
    by_cases hKra : K.contains (ra.bucket, ra.key) = true
    · by_cases hKrb : K.contains (rb.bucket, rb.key) = true
      · rw [if_pos hKra] at haeq
        rw [if_pos hKrb] at hbeq
        have hab : ra.bucket = rb.bucket := by
          have := hbk
          rw [haeq, hbeq] at this
          exact this
        have hak : ra.key = rb.key := by
          have := hke
          rw [haeq, hbeq] at this
          exact this
        have hcsa : computeCurrentState table ra = true := by
          have := hca
          rw [haeq] at this
          exact this
        have hcsb : computeCurrentState table rb = true := by
          have := hcb
          rw [hbeq] at this
          exact this
        rw [computeCurrentState, Bool.and_assoc, Bool.and_eq_true] at hcsa hcsb
        have hha := hcsa.1
        have hia := ((Bool.and_eq_true _ _).mp hcsa.2).1
        have hhb := hcsb.1
        have hib := ((Bool.and_eq_true _ _).mp hcsb.2).1
        have hpart : statePartition table ra = statePartition table rb := by
          unfold statePartition
          apply List.filter_congr
          intro x _
          rw [hab, hak, hia, hib]
        have hra' : headRow (statePartition table ra) = some ra := by
          simpa using hha
        have hrb' : headRow (statePartition table rb) = some rb := by
          simpa using hhb
        have : ra = rb := by
          have := hra'.symm.trans (hpart ▸ hrb')
          simpa using this
        rw [haeq, hbeq, this]
      · rw [if_neg hKrb] at hbeq
        exfalso
        have : K.contains (b.bucket, b.key) = true := by
          rw [← hbk, ← hke]
          exact hKa
        rw [hbeq] at this
        exact hKrb this
    · rw [if_neg hKra] at haeq
      exfalso
      apply hKra
      rw [haeq] at hKa
      exact hKa
  · intro a ha hKa hdm
    obtain ⟨ra, hra, haeq⟩ := mem_reset_current_state ha
    by_cases hKra : K.contains (ra.bucket, ra.key) = true
    · rw [if_pos hKra] at haeq
      have hdm' : ra.is_delete_marker = true := by
        have := hdm
        rw [haeq] at this
        exact this
      rw [haeq]
      simp [computeCurrentState, hdm']
    · rw [if_neg hKra] at haeq
      exfalso
      apply hKra
      rw [haeq] at hKa
      exact hKa

/-- Event-log rows used to exercise the projector: two rows of the same
`(bucket, key)` left with stale `is_current_state = true` flags, the second of
which is a delete marker. -/
def c2row1 : S3Object :=
  ⟨1, "b", "k", some "v1", EventType.Created, some "1", false, true⟩

/-- Second stale row: a delete marker marked current. -/
def c2row2 : S3Object :=
  ⟨2, "b", "k", some "v2", EventType.Created, some "2", true, true⟩

/-- A concrete event-log table with two stale current rows. -/
def c2table : List S3Object := [c2row1, c2row2]

/-- **C2 counterexample.** Running the projection with the empty touched set
over a table holding two stale rows of the same `(bucket, key)` leaves two
rows with `is_current_state = true` for that pair — one of them a delete
marker — so the claim does not hold for rows outside the touched set. -/
theorem reset_current_state_c2_counterexample :
    (reset_current_state [] c2table).countP
        (fun r => r.bucket == "b" && r.key == "k" && r.is_current_state) = 2 ∧
    (reset_current_state [] c2table).any
        (fun r => r.is_delete_marker && r.is_current_state) = true := by
  decide

/-- Witness for the amended C2: in the projected table for touched pair
`("b", "k")`, the delete-marker row is not current. -/
theorem reset_current_state_unique_current_witness :
    ({ c2row2 with is_current_state := false } : S3Object).is_current_state
      = false := by
  refine (reset_current_state_unique_current [("b", "k")] c2table).2
    { c2row2 with is_current_state := false } ?_ (by decide) (by decide)
  have hout : reset_current_state [("b", "k")] c2table =
      [{ c2row1 with is_current_state := false },
       { c2row2 with is_current_state := false }] := by decide
  rw [hout]
  exact List.mem_cons_of_mem _ (List.mem_cons_self _ _)

/-- A `(bucket, key, version_id)` group member with a non-null sequencer. -/
def c4row1 : S3Object :=
  ⟨1, "b", "k", some "v", EventType.Created, some "1", false, false⟩

/-- A member of the same group with a NULL sequencer. -/
def c4row2 : S3Object :=
  ⟨2, "b", "k", some "v", EventType.Created, none, false, false⟩

/-- A `(bucket, key, version_id)` group containing both a non-null-sequencer
and a NULL-sequencer record. -/
def c4group : List S3Object := [c4row1, c4row2]

/-- **C4 counterexample.** In a group holding both a NULL-sequencer record and
a non-NULL-sequencer record, the head row under `sequencer desc nulls last` is
the non-NULL record, not the NULL one: `nulls last` sorts a NULL sequencer
*after* every non-null sequencer in the descending scan, so the projector
treats it as the oldest, not the latest, member of the group. -/
theorem null_sequencer_head_counterexample :
    headRow c4group = some c4row1 ∧
    c4row1.sequencer = some "1" ∧
    c4row2.sequencer = none ∧
    is_current_version c4group c4row1 = true ∧
    is_current_version c4group c4row2 = false := by
  decide

/-- **C4 (amended).** Within one group ordered by `sequencer desc nulls last`,
the head row is never strictly preceded by any member; consequently, if the
group contains any record with a non-NULL sequencer, the head has a non-NULL
sequencer (a NULL-sequencer record is the head only when every member's
sequencer is NULL), and every member's sequencer is lexicographically at most
the head's. -/
theorem sequencer_nulls_last (rows : List S3Object) (h : S3Object)
    (hh : headRow rows = some h) :
    (∀ r ∈ rows, seqBefore r.sequencer h.sequencer = false) ∧
    ((∃ r ∈ rows, r.sequencer ≠ none) → h.sequencer ≠ none) ∧
    (∀ r ∈ rows, ∀ x y : String, r.sequencer = some x → h.sequencer = some y →
      x.data ≤ y.data) := by
  refine ⟨headRow_min hh, ?_, ?_⟩
  · rintro ⟨r, hr, hrs⟩ hnone
    have hmin := headRow_min hh r hr
    cases hrseq : r.sequencer with
    | none => exact hrs hrseq
    | some s =>
      rw [hrseq, hnone] at hmin
      simp [seqBefore] at hmin
  · intro r hr x y hx hy
    have hmin := headRow_min hh r hr
    rw [hx, hy] at hmin
    simp only [seqBefore, decide_eq_false_iff_not] at hmin
    exact not_lt.mp hmin

/-- Witness for the amended C4 at the concrete group `c4group`: its head is
the non-NULL-sequencer record. -/
theorem sequencer_nulls_last_witness : c4row1.sequencer ≠ none :=
  (sequencer_nulls_last c4group c4row1 (by decide)).2.1
    ⟨c4row1, List.mem_cons_self _ _, by decide⟩

/-- A row of the `s3_object` table restricted to the columns the generated
column `is_accessible` can see, together with unrelated columns (`bucket`,
`key`, `size`) used to state that `is_accessible` ignores them. -/
structure S3ObjectMeta where
  bucket : String
  key : String
  size : Option Int
  is_current_state : Bool
  storage_class : Option StorageClass
  reason : String
  archive_status : Option ArchiveStatus
deriving DecidableEq, Repr

/-- The generated expression of migration `0006_s3_relax_is_accessible.sql`:
`is_current_state and (storage_class is null or (storage_class != 'Glacier'
and (storage_class != 'DeepArchive' or reason = 'Restored' or reason =
'CrawlRestored') and (storage_class != 'IntelligentTiering' or archive_status
is null)))`. -/
def is_accessible (is_current_state : Bool) (storage_class : Option StorageClass)
    (reason : String) (archive_status : Option ArchiveStatus) : Bool :=
  is_current_state &&
  (storage_class == none ||
    (storage_class != some StorageClass.Glacier &&
     (storage_class != some StorageClass.DeepArchive ||
      reason == "Restored" || reason == "CrawlRestored") &&
     (storage_class != some StorageClass.IntelligentTiering ||
      archive_status == none)))

/-- The `is_accessible` value of a full row: the generated column reads only
`is_current_state`, `storage_class`, `reason` and `archive_status`. -/
def rowIsAccessible (r : S3ObjectMeta) : Bool :=
  is_accessible r.is_current_state r.storage_class r.reason r.archive_status

/-- The spec's accessibility formula, as a proposition: current state AND
(storage class NULL OR (not Glacier AND (not DeepArchive OR reason ∈
{Restored, CrawlRestored}) AND (not IntelligentTiering OR archive status
NULL))). -/
def is_accessible_spec (is_current_state : Bool)
    (storage_class : Option StorageClass) (reason : String)
    (archive_status : Option ArchiveStatus) : Prop :=
  is_current_state = true ∧
  (storage_class = none ∨
    (storage_class ≠ some StorageClass.Glacier ∧
     (storage_class ≠ some StorageClass.DeepArchive ∨
      reason = "Restored" ∨ reason = "CrawlRestored") ∧
     (storage_class ≠ some StorageClass.IntelligentTiering ∨
      archive_status = none)))

/-- **C3.** The computed column `is_accessible` agrees with the spec's formula
on every input, it is a pure function of `(is_current_state, storage_class,
reason, archive_status)` — two rows agreeing on those four columns have the
same accessibility regardless of all other columns — and a NULL storage class
is treated as accessible for a current row. -/
theorem is_accessible_correct :
    (∀ (ics : Bool) (sc : Option StorageClass) (reason : String)
        (as : Option ArchiveStatus),
      is_accessible ics sc reason as = true ↔
        is_accessible_spec ics sc reason as) ∧
    (∀ r1 r2 : S3ObjectMeta,
      r1.is_current_state = r2.is_current_state →
      r1.storage_class = r2.storage_class →
      r1.reason = r2.reason →
      r1.archive_status = r2.archive_status →
      rowIsAccessible r1 = rowIsAccessible r2) ∧
    (∀ (reason : String) (as : Option ArchiveStatus),
      is_accessible true none reason as = true) := by
  refine ⟨?_, ?_, ?_⟩
  · intro ics sc reason as
    simp only [is_accessible, is_accessible_spec, Bool.and_eq_true,
      Bool.or_eq_true, bne_iff_ne, beq_iff_eq, ne_eq, and_assoc, or_assoc]
  · intro r1 r2 h1 h2 h3 h4
    unfold rowIsAccessible
    rw [h1, h2, h3, h4]
  · intro reason as
    rfl

/-- Witness for C3: two concrete rows differing only in `bucket`, `key` and
`size` have the same `is_accessible`, here `false` since the storage class is
Glacier. -/
theorem is_accessible_correct_witness :
    rowIsAccessible
        ⟨"b1", "k1", some 1, true, some StorageClass.Glacier, "Unknown", none⟩ =
      rowIsAccessible
        ⟨"b2", "k2", none, true, some StorageClass.Glacier, "Unknown", none⟩ :=
  is_accessible_correct.2.1
    ⟨"b1", "k1", some 1, true, some StorageClass.Glacier, "Unknown", none⟩
    ⟨"b2", "k2", none, true, some StorageClass.Glacier, "Unknown", none⟩
    rfl rfl rfl rfl

/-- A decoded record heading for the event log (the `FlatEvent` /
`FlatS3EventMessage` shape): `event_type`, `event_time`, `bucket` and `key`
are required; `sequencer`, `version_id`, `size` and `e_tag` are nullable. -/
structure FlatEvent where
  event_type : EventType
  event_time : String
  sequencer : Option String
  bucket : String
  key : String
  version_id : Option String
  size : Option Int
  e_tag : Option String
deriving DecidableEq, Repr

/-- A row of an inventory data file, projected by column name (§6):
`Bucket`, `Key`, optionally `VersionId`, `Size`, `ETag`, `StorageClass`;
`archive_restored` records whether the row's storage-class state indicates an
archive-restored object. -/
structure InventoryRow where
  bucket : String
  key : String
  version_id : Option String
  size : Option Int
  e_tag : Option String
  storage_class : Option StorageClass
  archive_restored : Bool
deriving DecidableEq, Repr

/-- Modelled from the spec: the inventory reader (Rust code not present among
the sources) projects each row of a verified data file into a `FlatEvent`
with `event_type = Crawl` — or `CrawlRestored` when the row's storage class
indicates an archive-restored state — `event_time` equal to the data file's
last-modified time, and `sequencer = NULL` (§4.F). -/
def inventoryFlatEvent (file_last_modified : String) (row : InventoryRow) :
    FlatEvent :=
  { event_type :=
      if row.archive_restored then EventType.CrawlRestored else EventType.Crawl
    event_time := file_last_modified
    sequencer := none
    bucket := row.bucket
    key := row.key
    version_id := row.version_id
    size := row.size
    e_tag := row.e_tag }

/-- The nullability constraints of the v2 `s3_event` DDL on a candidate
record: `event_type`, `event_time`, `sequencer`, `bucket` and `key` are
declared NOT NULL.  Of these, only `sequencer` is nullable in a `FlatEvent`,
so the insert satisfies the constraints iff the sequencer is non-null
(`version_id`, `size` and `e_tag` are declared nullable). -/
def s3_event_insert_ok (e : FlatEvent) : Bool := e.sequencer.isSome

/-- Modelled from the spec: the v1 event-log table `s3_object` (its
create-table migration is not among the sources; §3 orders a NULL `sequencer`
last, so that column is nullable there) accepts a record with any sequencer,
NULL included. -/
def s3_object_insert_ok (_ : FlatEvent) : Bool := true

/-- **C5 counterexample.** A concrete verified inventory row yields a record
with `sequencer = NULL`, and that record violates the NOT NULL constraint on
`sequencer` declared by the cited v2 `s3_event` table, so it cannot be
persisted there without violating a schema constraint. -/
theorem inventory_null_sequencer_counterexample :
    (inventoryFlatEvent "2024-01-01T00:00:00Z"
        ⟨"b", "k", none, some 10, some "etag", some StorageClass.Standard,
          false⟩).sequencer = none ∧
    s3_event_insert_ok (inventoryFlatEvent "2024-01-01T00:00:00Z"
        ⟨"b", "k", none, some 10, some "etag", some StorageClass.Standard,
          false⟩) = false := by
  decide

/-- **C5 (amended).** For every row of a verified inventory data file the
reader produces a record with `event_type = Crawl` (`CrawlRestored` when the
storage class indicates an archive-restored state), `event_time` equal to the
file's last-modified time and `sequencer = NULL`; such a record violates the
NOT NULL `sequencer` constraint of the v2 `s3_event` table, while the v1
`s3_object` event log, whose `sequencer` is nullable, accepts it. -/
theorem inventory_reader_record (file_last_modified : String)
    (row : InventoryRow) :
    (inventoryFlatEvent file_last_modified row).event_type =
      (if row.archive_restored then EventType.CrawlRestored
       else EventType.Crawl) ∧
    (inventoryFlatEvent file_last_modified row).event_time =
      file_last_modified ∧
    (inventoryFlatEvent file_last_modified row).sequencer = none ∧
    s3_event_insert_ok (inventoryFlatEvent file_last_modified row) = false ∧
    s3_object_insert_ok (inventoryFlatEvent file_last_modified row) = true :=
  ⟨rfl, rfl, rfl, rfl, rfl⟩

/-- A row of the v2 `s3_metadata` table: S3-specific columns plus the two
reference columns `object_id` and `historical_object_id`, each nullable and
declared `unique references`. -/
structure S3Metadata where
  s3_metadata_id : Nat
  storage_class : Option StorageClass
  last_modified_date : Option String
  e_tag : Option String
  is_delete_marker : Option Bool
  archive_status : Option ArchiveStatus
  object_id : Option Nat
  historical_object_id : Option Nat
deriving DecidableEq, Repr

/-- Postgres `num_nonnulls` over the two reference columns. -/
def num_nonnulls (a b : Option Nat) : Nat :=
  (if a.isSome then 1 else 0) + (if b.isSome then 1 else 0)

/-- The constraints the `s3_metadata` DDL places on a table state: the check
`num_nonnulls(object_id, historical_object_id) = 1` on every row, the primary
key on `s3_metadata_id`, and the `unique` constraints on `object_id` and
`historical_object_id` (null values do not conflict, as in Postgres). -/
def s3_metadata_table_ok (t : List S3Metadata) : Prop :=
  (∀ r ∈ t, num_nonnulls r.object_id r.historical_object_id = 1) ∧
  (∀ r1 ∈ t, ∀ r2 ∈ t, r1.s3_metadata_id = r2.s3_metadata_id → r1 = r2) ∧
  (∀ r1 ∈ t, ∀ r2 ∈ t, r1.object_id.isSome →
    r1.object_id = r2.object_id → r1 = r2) ∧
  (∀ r1 ∈ t, ∀ r2 ∈ t, r1.historical_object_id.isSome →
    r1.historical_object_id = r2.historical_object_id → r1 = r2)

/-- **C6.** In any table state satisfying the `s3_metadata` DDL constraints,
every row references exactly one of an object or a historical object — never
both and never neither — and each object (respectively historical object) is
referenced by at most one row, so the relationship is 1:1 and exclusive. -/
theorem s3_metadata_one_to_one (t : List S3Metadata)
    (ht : s3_metadata_table_ok t) :
    (∀ r ∈ t,
      (r.object_id.isSome ∧ r.historical_object_id = none) ∨
      (r.object_id = none ∧ r.historical_object_id.isSome)) ∧
    (∀ oid : Nat, ∀ r1 ∈ t, ∀ r2 ∈ t,
      r1.object_id = some oid → r2.object_id = some oid → r1 = r2) ∧
    (∀ hid : Nat, ∀ r1 ∈ t, ∀ r2 ∈ t,
      r1.historical_object_id = some hid →
      r2.historical_object_id = some hid → r1 = r2) := by
  obtain ⟨hcheck, -, huniq_o, huniq_h⟩ := ht
  refine ⟨?_, ?_, ?_⟩
  · intro r hr
    have h := hcheck r hr
    unfold num_nonnulls at h
    cases ho : r.object_id with
    | none =>
      cases hh : r.historical_object_id with
      | none => rw [ho, hh] at h; simp at h
      | some y => right; simp [ho, hh]
    | some x =>
      cases hh : r.historical_object_id with
      | none => left; simp [ho, hh]
      | some y => rw [ho, hh] at h; simp at h
  · intro oid r1 h1 r2 h2 ho1 ho2
    exact huniq_o r1 h1 r2 h2 (by simp [ho1]) (ho1.trans ho2.symm)
  · intro hid r1 h1 r2 h2 ho1 ho2
    exact huniq_h r1 h1 r2 h2 (by simp [ho1]) (ho1.trans ho2.symm)

/-- A concrete two-row `s3_metadata` table: one row referencing an object,
one referencing a historical object. -/
def c6table : List S3Metadata :=
  [⟨1, some StorageClass.Standard, some "2024-01-01", some "e1", some false,
      none, some 10, none⟩,
   ⟨2, none, none, none, none, none, none, some 20⟩]

/-- Witness for C6 at the concrete table `c6table`: its two rows referencing
object 10 coincide. -/
theorem s3_metadata_one_to_one_witness :
    (⟨1, some StorageClass.Standard, some "2024-01-01", some "e1", some false,
        none, some 10, none⟩ : S3Metadata) =
      ⟨1, some StorageClass.Standard, some "2024-01-01", some "e1", some false,
        none, some 10, none⟩ :=
  (s3_metadata_one_to_one c6table
      (by unfold s3_metadata_table_ok; decide)).2.1 10
    _ (List.mem_cons_self _ _) _ (List.mem_cons_self _ _) rfl rfl

/-- An IAM policy statement: a list of actions over a list of resources. -/
structure PolicyStatement where
  actions : List String
  resources : List String
deriving DecidableEq, Repr

/-- `Function.getObjectActions` from `function.ts`. -/
def getObjectActions : List String :=
  ["s3:ListBucket", "s3:ListBucketVersions", "s3:GetObject"]

/-- `Function.getObjectVersionActions` from `function.ts`. -/
def getObjectVersionActions : List String :=
  ["s3:GetObjectVersion"]

/-- `Function.objectTaggingActions` from `function.ts`. -/
def objectTaggingActions : List String :=
  ["s3:GetObjectTagging", "s3:GetObjectVersionTagging",
   "s3:PutObjectTagging", "s3:PutObjectVersionTagging"]

/-- `Function.formatPoliciesForBucket` from `function.ts`: one statement per
bucket, over the bucket ARN and the ARN of the objects within it. -/
def formatPoliciesForBucket (buckets actions : List String) :
    List PolicyStatement :=
  buckets.map fun bucket =>
    { actions := actions
      resources := ["arn:aws:s3:::" ++ bucket, "arn:aws:s3:::" ++ bucket ++ "/*"] }

/-- The policy statements the `IngestFunction` constructor adds for its
buckets: `addPoliciesForBuckets(props.buckets, [...getObjectActions(),
...getObjectVersionActions(), ...objectTaggingActions()])`. -/
def ingestFunctionPolicies (buckets : List String) : List PolicyStatement :=
  formatPoliciesForBucket buckets
    (getObjectActions ++ getObjectVersionActions ++ objectTaggingActions)

/-- **C7.** For every ingest bucket, the ingest function's role holds a policy
statement over the bucket and the objects within it granting exactly the
listing actions (`s3:ListBucket`, `s3:ListBucketVersions`), the get actions
with and without version qualifier (`s3:GetObject`, `s3:GetObjectVersion`),
and the tagging get/put actions with and without version qualifier. -/
theorem ingest_function_bucket_policies (buckets : List String) (b : String)
    (hb : b ∈ buckets) :
    ({ actions :=
        ["s3:ListBucket", "s3:ListBucketVersions", "s3:GetObject",
         "s3:GetObjectVersion",
         "s3:GetObjectTagging", "s3:GetObjectVersionTagging",
         "s3:PutObjectTagging", "s3:PutObjectVersionTagging"],
       resources :=
        ["arn:aws:s3:::" ++ b, "arn:aws:s3:::" ++ b ++ "/*"] } :
      PolicyStatement) ∈ ingestFunctionPolicies buckets := by
  unfold ingestFunctionPolicies formatPoliciesForBucket
  exact List.mem_map_of_mem _ hb

/-- Witness for C7 at a concrete bucket list. -/
theorem ingest_function_bucket_policies_witness :
    ({ actions :=
        ["s3:ListBucket", "s3:ListBucketVersions", "s3:GetObject",
         "s3:GetObjectVersion",
         "s3:GetObjectTagging", "s3:GetObjectVersionTagging",
         "s3:PutObjectTagging", "s3:PutObjectVersionTagging"],
       resources :=
        ["arn:aws:s3:::" ++ "umccr-temp-dev",
         "arn:aws:s3:::" ++ "umccr-temp-dev" ++ "/*"] } :
      PolicyStatement) ∈ ingestFunctionPolicies ["umccr-temp-dev"] :=
  ingest_function_bucket_policies ["umccr-temp-dev"] "umccr-temp-dev"
    (List.mem_cons_self _ _)

/-- `FILEMANAGER_INGEST_ID_TAG_NAME` from `constants.ts`. -/
def FILEMANAGER_INGEST_ID_TAG_NAME : String :=
  "umccr-org:OrcaBusFileManagerIngestId"

/-- `FILEMANAGER_SERVICE_NAME` from `constants.ts`. -/
def FILEMANAGER_SERVICE_NAME : String := "filemanager"

/-- The `environment` value of the `FunctionProps` object that the
`IngestFunction` constructor passes to `super`:
`{ package: ..., environment: { FILEMANAGER_INGESTER_TAG_NAME:
FILEMANAGER_INGEST_ID_TAG_NAME, ...props.environment }, ...props }`.
The trailing `...props` spread comes *after* the `environment:` entry, so by
JS object-spread semantics a caller-supplied `environment` object replaces
the inner literal wholesale; the literal carrying the tag binding survives
only when the caller's props hold no `environment` key. -/
def ingestFunctionSuperEnvironment
    (props_environment : Option (List (String × String))) :
    Option (List (String × String)) :=
  match props_environment with
  | none =>
      some [("FILEMANAGER_INGESTER_TAG_NAME", FILEMANAGER_INGEST_ID_TAG_NAME)]
  | some e => some e

/-- The Lambda environment the base `Function` constructor builds
(`function.ts`): the database and logging defaults with `props.environment`
spread over them. -/
def functionLambdaEnvironment (pghost pgport rust_log : String)
    (environment : Option (List (String × String))) :
    List (String × String) :=
  [("PGHOST", pghost), ("PGPORT", pgport),
   ("PGDATABASE", FILEMANAGER_SERVICE_NAME),
   ("PGUSER", FILEMANAGER_SERVICE_NAME),
   ("RUST_LOG", rust_log)] ++ environment.getD []

/-- The ingest Lambda's environment for a caller-supplied optional
`environment` object: the base `Function` environment built over the
`environment` value of the `super` call. -/
def ingestLambdaEnvironment (pghost pgport rust_log : String)
    (props_environment : Option (List (String × String))) :
    List (String × String) :=
  functionLambdaEnvironment pghost pgport rust_log
    (ingestFunctionSuperEnvironment props_environment)

/-- Lookup in a spread-built environment object: by JS object-spread
semantics, the last binding of a key wins. -/
def envLookup (env : List (String × String)) (k : String) : Option String :=
  ((env.filter fun p => p.1 == k).getLast?).map Prod.snd

/-- **C8.** The lineage tag key constant equals
`umccr-org:OrcaBusFileManagerIngestId` exactly; when the construction props
carry no `environment` object — as at the repository's only `IngestFunction`
call site, whose `FileManagerStatelessProps` has no `environment` property —
the ingest Lambda's environment binds the configured tag name
`FILEMANAGER_INGESTER_TAG_NAME` to that constant; and when a caller does pass
an `environment` object, the trailing `...props` spread replaces the inner
literal wholesale, so the Lambda's tag binding is exactly that object's. -/
theorem ingest_id_tag_name_configured :
    FILEMANAGER_INGEST_ID_TAG_NAME = "umccr-org:OrcaBusFileManagerIngestId" ∧
    (∀ pghost pgport rust_log : String,
      envLookup (ingestLambdaEnvironment pghost pgport rust_log none)
          "FILEMANAGER_INGESTER_TAG_NAME" =
        some FILEMANAGER_INGEST_ID_TAG_NAME) ∧
    (∀ (pghost pgport rust_log : String) (e : List (String × String)),
      envLookup (ingestLambdaEnvironment pghost pgport rust_log (some e))
          "FILEMANAGER_INGESTER_TAG_NAME" =
        envLookup e "FILEMANAGER_INGESTER_TAG_NAME") := by
  refine ⟨rfl, ?_, ?_⟩
  · intro pghost pgport rust_log
    rfl
  · intro pghost pgport rust_log e
    unfold envLookup ingestLambdaEnvironment functionLambdaEnvironment
      ingestFunctionSuperEnvironment
    rw [List.filter_append]
    have hbase :
        List.filter (fun p => p.1 == "FILEMANAGER_INGESTER_TAG_NAME")
          [("PGHOST", pghost), ("PGPORT", pgport),
           ("PGDATABASE", FILEMANAGER_SERVICE_NAME),
           ("PGUSER", FILEMANAGER_SERVICE_NAME),
           ("RUST_LOG", rust_log)] = [] := by
      simp [List.filter]
    rw [hbase, List.nil_append]
    rfl

/-- A current-state object record tracked by the filemanager, with its
move-tracking lineage identifier (`ingestId` in the API). -/
structure ObjectRecord where
  bucket : String
  key : String
  version_id : Option String
  lineage_id : Nat
  storage_class : Option StorageClass
  size : Option Int
  e_tag : Option String
deriving DecidableEq, Repr

/-- An object listed while crawling a bucket and prefix. -/
structure CrawledObject where
  bucket : String
  key : String
  size : Option Int
  e_tag : Option String
  storage_class : Option StorageClass
deriving DecidableEq, Repr

/-- Modelled from the spec: ingestion of one crawled object (the crawler's
Rust code is not among the sources; §4.G and `run_crawl.sh` assert its
behaviour).  For an object already known to the system the crawl record
refreshes metadata but never alters `lineage_id`; for an unknown object it
fills in a fresh row with a new lineage identifier. -/
def crawlStep (fresh_id : Nat) (db : List ObjectRecord) (c : CrawledObject) :
    List ObjectRecord :=
  if db.any fun r => r.bucket == c.bucket && r.key == c.key then
    db.map fun r =>
      if r.bucket == c.bucket && r.key == c.key then
        { r with storage_class := c.storage_class, size := c.size,
                 e_tag := c.e_tag }
      else r
  else
    db ++ [{ bucket := c.bucket, key := c.key, version_id := none,
             lineage_id := fresh_id, storage_class := c.storage_class,
             size := c.size, e_tag := c.e_tag }]

/-- Modelled from the spec: a whole crawl over the listed objects of a bucket
and prefix, threading fresh lineage identifiers for unknown objects. -/
def runCrawl (fresh_id : Nat) (db : List ObjectRecord) :
    List CrawledObject → List ObjectRecord
  | [] => db
  | c :: cs => runCrawl (fresh_id + 1) (crawlStep fresh_id db c) cs

/-- The lineage view of the database: each row's `(bucket, key, lineage_id)`. -/
def lineageView (db : List ObjectRecord) : List (String × String × Nat) :=
  db.map fun r => (r.bucket, r.key, r.lineage_id)

lemma lineageView_crawlStep (fresh_id : Nat) (db : List ObjectRecord)
    (c : CrawledObject) :
    ∃ added, lineageView (crawlStep fresh_id db c) = lineageView db ++ added := by
  unfold crawlStep
  by_cases h : (db.any fun r => r.bucket == c.bucket && r.key == c.key) = true
  · rw [if_pos h]
    refine ⟨[], ?_⟩
    rw [List.append_nil]
    unfold lineageView
    rw [List.map_map]
    apply List.map_congr_left
    intro r _
    simp only [Function.comp_apply]
    split <;> rfl
  · rw [if_neg h]
    exact ⟨[(c.bucket, c.key, fresh_id)], by simp [lineageView]⟩

/-- **C9.** A crawl only appends: the `(bucket, key, lineage_id)` view of the
records known before the crawl is an unchanged prefix of the view after it,
so for every object already known to the system the crawl leaves its
`lineage_id` untouched and only previously-unknown objects gain new rows. -/
theorem crawl_preserves_lineage (fresh_id : Nat) (db : List ObjectRecord)
    (cs : List CrawledObject) :
    ∃ added, lineageView (runCrawl fresh_id db cs) = lineageView db ++ added := by
  induction cs generalizing fresh_id db with
  | nil => exact ⟨[], by simp [runCrawl]⟩
  | cons c cs ih =>
    obtain ⟨added1, h1⟩ := lineageView_crawlStep fresh_id db c
    obtain ⟨added2, h2⟩ := ih (fresh_id + 1) (crawlStep fresh_id db c)
    refine ⟨added1 ++ added2, ?_⟩
    rw [runCrawl, h2, h1, List.append_assoc]

/-- EventBridge wildcard matching over characters: `*` matches any (possibly
empty) run of characters, all other characters match themselves. -/
def wildcardMatch : List Char → List Char → Bool
  | [], s => s.isEmpty
  | '*' :: ps, s => s.tails.any fun t => wildcardMatch ps t
  | _ :: _, [] => false
  | p :: ps, c :: cs => p == c && wildcardMatch ps cs

/-- The EventBridge `anything-but` wildcard condition: the value is admitted
iff it matches none of the patterns. -/
def anythingButWildcard (pats : List (List Char)) (s : List Char) : Bool :=
  !(pats.any fun p => wildcardMatch p s)

/-- `eventSourcePattern` from `config.ts`: `$or` of the condition
`size: [{numeric: ['>', 0]}]` and the condition
`key: [{'anything-but': {wildcard: ['*/']}}]`. -/
def eventSourcePattern (size : Int) (key : List Char) : Bool :=
  decide (size > 0) || anythingButWildcard [['*', '/']] key

lemma wildcardMatch_star_slash (key : List Char) :
    wildcardMatch ['*', '/'] key = (key.getLast? == some '/') := by
  induction key with
  | nil => rfl
  | cons c cs ih =>
    have hstep : wildcardMatch ['*', '/'] (c :: cs) =
        (wildcardMatch ['/'] (c :: cs) || wildcardMatch ['*', '/'] cs) := by
      simp [wildcardMatch, List.tails_cons]
    rw [hstep, ih]
    cases cs with
    | nil =>
      by_cases hc : c = '/'
      · subst hc; decide
      · have h1 : ('/' == c) = false := beq_eq_false_iff_ne.mpr (Ne.symm hc)
        have h2 : (([c] : List Char).getLast? == some '/') = false := by
          rw [List.getLast?_singleton]
          exact beq_eq_false_iff_ne.mpr (by simp [hc])
        simp [wildcardMatch, h1, h2]
        exact hc
    | cons c2 cs2 =>
      have h3 : wildcardMatch ['/'] (c :: c2 :: cs2) = false := by
        simp [wildcardMatch]
      rw [h3, Bool.false_or]
      rfl

/-- **C10.** An object-store notification evaluated against the non-cache
`eventSourcePattern` is admitted iff the object's size is greater than 0 or
its key does not end with `'/'`; in particular a zero-size key ending in
`'/'` (a directory placeholder) is never admitted into the ingest queue. -/
theorem event_source_pattern_admits (size : Int) (key : List Char) :
    eventSourcePattern size key =
      (decide (size > 0) || !(key.getLast? == some '/')) ∧
    eventSourcePattern 0 key = !(key.getLast? == some '/') := by
  constructor
  · unfold eventSourcePattern anythingButWildcard
    rw [List.any_cons, List.any_nil, wildcardMatch_star_slash, Bool.or_false]
  · unfold eventSourcePattern anythingButWildcard
    rw [List.any_cons, List.any_nil, wildcardMatch_star_slash, Bool.or_false]
    rfl

end Filemanager
